import Mathlib

/-!
Verification development for the pyuo client (Python Ultima Online text client).

Shallow embedding of the core of `pyuo/net.py` (byte cursor, packet decoders,
decompression, transport receive), `pyuo/client.py` (session state machine and
the vitals branches of the game dispatch loop) and `pyuo/brain.py` (the event
queue between the receive loop and the Brain thread).

Bytes are modelled as `Nat` (each `< 256` on real input); buffers as `List Nat`.
Python exceptions are modelled with `Except` over an error type.
-/

deriving instance DecidableEq for Except

namespace PyUO

/-- Errors raised by the network layer: `EOFError` in `Packet.pb`, the
`RuntimeError`s for a wrong command byte and for a length mismatch in
`Packet.validate`, `NotImplementedError` for unknown packets,
`NoFullPacketError` from `Network.decompress`, and failed `assert`s. -/
inductive NetErr where
  | eofError
  | invalidCmd
  | lenMismatch
  | notImplementedError
  | noFullPacket
  | assertFailed
  deriving Repr, DecidableEq

/-- Read cursor over a packet buffer: `Packet.buf` (the not-yet-consumed bytes)
and `Packet.readCount` from `pyuo/net.py` (`Packet.__init__`). -/
structure PacketBuf where
  buf : List Nat
  readCount : Nat
  deriving Repr, DecidableEq

/-- `Packet.pb` (net.py:383-390): return the first `num` bytes of the buffer,
advance `readCount`, or raise `EOFError` when fewer than `num` bytes remain. -/
def pb (num : Nat) (p : PacketBuf) : Except NetErr (List Nat × PacketBuf) :=
  if num > p.buf.length then
    .error .eofError
  else
    .ok (p.buf.take num, ⟨p.buf.drop num, p.readCount + num⟩)

/-- `Packet.uchar` (net.py:392-394): next unsigned byte (`struct.unpack('B')`). -/
def uchar (p : PacketBuf) : Except NetErr (Nat × PacketBuf) := do
  let (bs, p') ← pb 1 p
  .ok (bs.headI, p')

/-- `Packet.schar` (net.py:396-398): next signed byte (`struct.unpack('b')`). -/
def schar (p : PacketBuf) : Except NetErr (Int × PacketBuf) := do
  let (bs, p') ← pb 1 p
  let b := bs.headI
  .ok (if b < 128 then (b : Int) else (b : Int) - 256, p')

/-- `Packet.ushort` (net.py:400-402): next big-endian unsigned 16-bit value. -/
def ushort (p : PacketBuf) : Except NetErr (Nat × PacketBuf) := do
  let (bs, p') ← pb 2 p
  .ok (bs.headI * 256 + (bs.drop 1).headI, p')

/-- `Packet.uint` (net.py:404-406): next big-endian unsigned 32-bit value. -/
def uint (p : PacketBuf) : Except NetErr (Nat × PacketBuf) := do
  let (bs, p') ← pb 4 p
  .ok (bs.headI * 16777216 + (bs.drop 1).headI * 65536 +
       (bs.drop 2).headI * 256 + (bs.drop 3).headI, p')

/-- `Packet.string` (net.py:408-410): next fixed-length string. The source
passes the raw bytes through `Util.varStr` (text decoding plus trailing-NUL
strip); the text conversion does not affect byte accounting and is kept as the
raw byte run here. -/
def stringRaw (length : Nat) (p : PacketBuf) : Except NetErr (List Nat × PacketBuf) :=
  pb length p

/-- `Packet.ip` (net.py:412-414): next four bytes as an IPv4 address. -/
def ipRead (p : PacketBuf) : Except NetErr (List Nat × PacketBuf) :=
  pb 4 p

/-- Decoded `ObjectInfoPacket` (cmd 0x1a) fields, net.py:851-883. Conditional
fields are `Option`s: `None` in the source becomes `none`. -/
structure ObjectInfo where
  serial : Nat
  graphic : Nat
  count : Option Nat
  x : Nat
  y : Nat
  facing : Option Int
  z : Int
  color : Option Nat
  flag : Option Nat
  deriving Repr, DecidableEq

/-- Decoded `StatusBarInfoPacket` (cmd 0x11) fields, net.py:1041-1107. Fields
gated by the severity byte are `Option`s. The gating byte itself is a local
variable `flag` in the source (not stored on the packet object). -/
structure StatusBarInfo where
  serial : Nat
  name : List Nat
  hp : Nat
  maxhp : Nat
  canrename : Nat
  gener : Nat
  str : Nat
  dex : Nat
  int : Nat
  stam : Nat
  maxstam : Nat
  mana : Nat
  maxmana : Nat
  gold : Nat
  ar : Nat
  weight : Nat
  maxweight : Option Nat
  race : Option Nat
  statcap : Option Nat
  followers : Option Nat
  maxfollowers : Option Nat
  rfire : Option Nat
  rcold : Option Nat
  rpoison : Option Nat
  renergy : Option Nat
  luck : Option Nat
  mindmg : Option Nat
  maxdmg : Option Nat
  tithing : Option Nat
  hitinc : Option Nat
  swinginc : Option Nat
  dmginc : Option Nat
  lrc : Option Nat
  hpregen : Option Nat
  stamregen : Option Nat
  manaregen : Option Nat
  reflectphysical : Option Nat
  enhancepot : Option Nat
  definc : Option Nat
  spellinc : Option Nat
  fcr : Option Nat
  fc : Option Nat
  lmc : Option Nat
  strinc : Option Nat
  dexinc : Option Nat
  intinc : Option Nat
  hpinc : Option Nat
  staminc : Option Nat
  manainc : Option Nat
  maxhpinc : Option Nat
  maxstaminc : Option Nat
  maxmanainc : Option Nat
  deriving Repr, DecidableEq

/-- Bodies of the inbound packets embedded in this development (the subset of
`Ph.HANDLERS` that the verified properties exercise; each decoder below is a
full translation of the corresponding `__init__`). -/
inductive GamePacket where
  | ping (seq : Nat)
  | loginComplete
  | updateHealth (serial maxv cur : Nat)
  | updateMana (serial maxv cur : Nat)
  | updateStamina (serial maxv cur : Nat)
  | objectInfo (o : ObjectInfo)
  | statusBarInfo (s : StatusBarInfo)
  deriving Repr, DecidableEq

/-- A decoded inbound packet: its command byte, its declared (or class-fixed)
`length`, the `readCount` reached by its decoder, the `validated` flag set by
`Packet.validate`, and the decoded body. -/
structure DecodedPacket where
  cmd : Nat
  length : Nat
  readCount : Nat
  validated : Bool
  body : GamePacket
  deriving Repr, DecidableEq

/-- `Packet.validate` (net.py:416-421): raise a `RuntimeError` when the
declared length differs from the bytes actually consumed, otherwise mark the
packet validated. -/
def validate (p : DecodedPacket) : Except NetErr DecodedPacket :=
  if p.length ≠ p.readCount then .error .lenMismatch
  else .ok { p with validated := true }

/-- `Packet.__init__` (net.py:374-381): read the command byte and check it
matches the packet class's `cmd`. -/
def packetInit (cmd : Nat) (buf : List Nat) : Except NetErr PacketBuf := do
  let p0 : PacketBuf := ⟨buf, 0⟩
  let (c, p1) ← uchar p0
  if c ≠ cmd then .error .invalidCmd else .ok p1

/-- `PingPacket` decoder (net.py:469-477): cmd 0x73, fixed length 2. -/
def pingPacket (buf : List Nat) : Except NetErr DecodedPacket := do
  let p1 ← packetInit 0x73 buf
  let (seq, p2) ← uchar p1
  .ok ⟨0x73, 2, p2.readCount, false, .ping seq⟩

/-- `LoginCompletePacket` decoder (net.py:771-778): cmd 0x55, fixed length 1. -/
def loginCompletePacket (buf : List Nat) : Except NetErr DecodedPacket := do
  let p1 ← packetInit 0x55 buf
  .ok ⟨0x55, 1, p1.readCount, false, .loginComplete⟩

/-- `UpdateVitalPacket` base decoder (net.py:1002-1011): fixed length 9, reads
serial, max and cur; shared by the health/mana/stamina packets. -/
def updateVitalPacket (cmd : Nat) (mk : Nat → Nat → Nat → GamePacket)
    (buf : List Nat) : Except NetErr DecodedPacket := do
  let p1 ← packetInit cmd buf
  let (serial, p2) ← uint p1
  let (maxv, p3) ← ushort p2
  let (cur, p4) ← ushort p3
  .ok ⟨cmd, 9, p4.readCount, false, mk serial maxv cur⟩

/-- `UpdateHealthPacket` decoder (net.py:1014-1020): cmd 0xa1. -/
def updateHealthPacket : List Nat → Except NetErr DecodedPacket :=
  updateVitalPacket 0xa1 GamePacket.updateHealth

/-- `UpdateManaPacket` decoder (net.py:1023-1029): cmd 0xa2. -/
def updateManaPacket : List Nat → Except NetErr DecodedPacket :=
  updateVitalPacket 0xa2 GamePacket.updateMana

/-- `UpdateStaminaPacket` decoder (net.py:1032-1038): cmd 0xa3. -/
def updateStaminaPacket : List Nat → Except NetErr DecodedPacket :=
  updateVitalPacket 0xa3 GamePacket.updateStamina

/-- `ObjectInfoPacket` decoder (net.py:851-883): cmd 0x1a. Presence bits:
bit 31 of `serial` gates `count`, bit 15 of `graphic` gates a graphic
increment byte, bit 15 of the raw `x` word gates `facing`, bit 15 of the raw
`y` word gates `color`, bit 14 of the raw `y` word gates `flag`; the stored
coordinates are masked afterwards (`x & 0x7fff`, `y & 0x3fff`). -/
def objectInfoPacket (buf : List Nat) : Except NetErr DecodedPacket := do
  let p1 ← packetInit 0x1a buf
  let (length, p2) ← ushort p1
  let (serial, p3) ← uint p2
  let (graphic0, p4) ← ushort p3
  let (count, p5) ←
    if serial &&& 0x80000000 ≠ 0 then do
      let (c, p') ← ushort p4
      .ok (some c, p')
    else .ok ((none : Option Nat), p4)
  let (graphic, p6) ←
    if graphic0 &&& 0x8000 ≠ 0 then do
      let (g, p') ← uchar p5
      .ok (graphic0 + g, p')
    else .ok (graphic0, p5)
  let (x, p7) ← ushort p6
  let (y, p8) ← ushort p7
  let (facing, p9) ←
    if x &&& 0x8000 ≠ 0 then do
      let (f, p') ← schar p8
      .ok (some f, p')
    else .ok ((none : Option Int), p8)
  let (z, p10) ← schar p9
  let (color, p11) ←
    if y &&& 0x8000 ≠ 0 then do
      let (c, p') ← ushort p10
      .ok (some c, p')
    else .ok ((none : Option Nat), p10)
  let (flag, p12) ←
    if y &&& 0x4000 ≠ 0 then do
      let (f, p') ← uchar p11
      .ok (some f, p')
    else .ok ((none : Option Nat), p11)
  .ok ⟨0x1a, length, p12.readCount, false,
    .objectInfo ⟨serial, graphic, count, x &&& 0x7fff, y &&& 0x3fff,
                 facing, z, color, flag⟩⟩

/-- `StatusBarInfoPacket` decoder (net.py:1041-1107): cmd 0x11. The severity
byte `flag` gates the trailing field tiers exactly as in the source:
`flag >= 5` adds maxweight/race, `flag >= 3` adds statcap/followers,
`flag >= 4` adds the resistances block, `flag >= 6` adds the increments
block, read in that textual order. -/
def statusBarInfoPacket (buf : List Nat) : Except NetErr DecodedPacket := do
  let p1 ← packetInit 0x11 buf
  let (length, p2) ← ushort p1
  let (serial, p3) ← uint p2
  let (name, p4) ← stringRaw 30 p3
  let (hp, p5) ← ushort p4
  let (maxhp, p6) ← ushort p5
  let (canrename, p7) ← uchar p6
  let (flag, p8) ← uchar p7
  let (gener, p9) ← uchar p8
  let (strv, p10) ← ushort p9
  let (dex, p11) ← ushort p10
  let (intv, p12) ← ushort p11
  let (stam, p13) ← ushort p12
  let (maxstam, p14) ← ushort p13
  let (mana, p15) ← ushort p14
  let (maxmana, p16) ← ushort p15
  let (gold, p17) ← uint p16
  let (ar, p18) ← ushort p17
  let (weight, p19) ← ushort p18
  let (maxweight, race, p20) ←
    if 5 ≤ flag then do
      let (mw, q1) ← ushort p19
      let (ra, q2) ← uchar q1
      .ok (some mw, some ra, q2)
    else .ok ((none : Option Nat), (none : Option Nat), p19)
  let (statcap, followers, maxfollowers, p21) ←
    if 3 ≤ flag then do
      let (sc, q1) ← ushort p20
      let (fo, q2) ← uchar q1
      let (mf, q3) ← uchar q2
      .ok (some sc, some fo, some mf, q3)
    else .ok ((none : Option Nat), (none : Option Nat), (none : Option Nat), p20)
  let (rfire, rcold, rpoison, renergy, luck, mindmg, maxdmg, tithing, p22) ←
    if 4 ≤ flag then do
      let (rf, q1) ← ushort p21
      let (rc, q2) ← ushort q1
      let (rp, q3) ← ushort q2
      let (re, q4) ← ushort q3
      let (lu, q5) ← ushort q4
      let (mi, q6) ← ushort q5
      let (ma, q7) ← ushort q6
      let (ti, q8) ← uint q7
      .ok (some rf, some rc, some rp, some re, some lu, some mi, some ma, some ti, q8)
    else .ok ((none : Option Nat), (none : Option Nat), (none : Option Nat),
              (none : Option Nat), (none : Option Nat), (none : Option Nat),
              (none : Option Nat), (none : Option Nat), p21)
  if 6 ≤ flag then do
    let (hitinc, q1) ← ushort p22
    let (swinginc, q2) ← ushort q1
    let (dmginc, q3) ← ushort q2
    let (lrc, q4) ← ushort q3
    let (hpregen, q5) ← ushort q4
    let (stamregen, q6) ← ushort q5
    let (manaregen, q7) ← ushort q6
    let (reflectphysical, q8) ← ushort q7
    let (enhancepot, q9) ← ushort q8
    let (definc, q10) ← ushort q9
    let (spellinc, q11) ← ushort q10
    let (fcr, q12) ← ushort q11
    let (fc, q13) ← ushort q12
    let (lmc, q14) ← ushort q13
    let (strinc, q15) ← ushort q14
    let (dexinc, q16) ← ushort q15
    let (intinc, q17) ← ushort q16
    let (hpinc, q18) ← ushort q17
    let (staminc, q19) ← ushort q18
    let (manainc, q20) ← ushort q19
    let (maxhpinc, q21) ← ushort q20
    let (maxstaminc, q22) ← ushort q21
    let (maxmanainc, q23) ← ushort q22
    .ok ⟨0x11, length, q23.readCount, false,
      .statusBarInfo ⟨serial, name, hp, maxhp, canrename, gener, strv, dex, intv,
        stam, maxstam, mana, maxmana, gold, ar, weight, maxweight, race,
        statcap, followers, maxfollowers, rfire, rcold, rpoison, renergy, luck,
        mindmg, maxdmg, tithing, some hitinc, some swinginc, some dmginc,
        some lrc, some hpregen, some stamregen, some manaregen,
        some reflectphysical, some enhancepot, some definc, some spellinc,
        some fcr, some fc, some lmc, some strinc, some dexinc, some intinc,
        some hpinc, some staminc, some manainc, some maxhpinc, some maxstaminc,
        some maxmanainc⟩⟩
  else
    .ok ⟨0x11, length, p22.readCount, false,
      .statusBarInfo ⟨serial, name, hp, maxhp, canrename, gener, strv, dex, intv,
        stam, maxstam, mana, maxmana, gold, ar, weight, maxweight, race,
        statcap, followers, maxfollowers, rfire, rcold, rpoison, renergy, luck,
        mindmg, maxdmg, tithing, none, none, none, none, none, none, none,
        none, none, none, none, none, none, none, none, none, none, none,
        none, none, none, none, none⟩⟩

/-- Names of the fields `StatusBarInfoPacket.__init__` reads after the command
byte, in read order, as a function of the severity byte `flag`: a direct
transcription of the decoder's structure (net.py:1046-1107), to state layout
properties of the 0x11 wire format. -/
def statusBarFieldOrder (flag : Nat) : List String :=
  ["length", "serial", "name", "hp", "maxhp", "canrename", "flag", "gener",
   "str", "dex", "int", "stam", "maxstam", "mana", "maxmana", "gold", "ar",
   "weight"]
  ++ (if 5 ≤ flag then ["maxweight", "race"] else [])
  ++ (if 3 ≤ flag then ["statcap", "followers", "maxfollowers"] else [])
  ++ (if 4 ≤ flag then
        ["rfire", "rcold", "rpoison", "renergy", "luck", "mindmg", "maxdmg",
         "tithing"]
      else [])
  ++ (if 6 ≤ flag then
        ["hitinc", "swinginc", "dmginc", "lrc", "hpregen", "stamregen",
         "manaregen", "reflectphysical", "enhancepot", "definc", "spellinc",
         "fcr", "fc", "lmc", "strinc", "dexinc", "intinc", "hpinc", "staminc",
         "manainc", "maxhpinc", "maxstaminc", "maxmanainc"]
      else [])

/-- `Ph.process` (net.py:1257-1264): dispatch on the command byte `buf[0]`.
The table here is the sub-table of `Ph.HANDLERS` for the packets embedded in
this development; every other command raises `NotImplementedError` (in the
source, only commands absent from `Ph.HANDLERS` do). -/
def phProcess (buf : List Nat) : Except NetErr DecodedPacket :=
  match buf.headD 0 with
  | 0x73 => pingPacket buf
  | 0x55 => loginCompletePacket buf
  | 0xa1 => updateHealthPacket buf
  | 0xa2 => updateManaPacket buf
  | 0xa3 => updateStaminaPacket buf
  | 0x1a => objectInfoPacket buf
  | 0x11 => statusBarInfoPacket buf
  | _ => .error .notImplementedError

set_option maxHeartbeats 1000000 in
/-- The static decompression table (net.py:16-274): the fixed 256-node binary
tree, entry number `n` holding the pair `(leaf0, leaf1)`. -/
def decompressionTreeList : List (Int × Int) := [
  (2, 1), (4, 3), (0, 5), (7, 6), (9, 8), (11, 10), (13, 12), (14, -256),
  (16, 15), (18, 17), (20, 19), (22, 21), (23, -1), (25, 24), (27, 26), (29, 28),
  (31, 30), (33, 32), (35, 34), (37, 36), (39, 38), (-64, 40), (42, 41), (44, 43),
  (45, -6), (47, 46), (49, 48), (51, 50), (52, -119), (53, -32), (-14, 54), (-5, 55),
  (57, 56), (59, 58), (-2, 60), (62, 61), (64, 63), (66, 65), (68, 67), (70, 69),
  (72, 71), (73, -51), (75, 74), (77, 76), (-111, -101), (-97, -4), (79, 78), (80, -110),
  (-116, 81), (83, 82), (-255, 84), (86, 85), (88, 87), (90, 89), (-10, -15), (92, 91),
  (93, -21), (94, -117), (96, 95), (98, 97), (100, 99), (101, -114), (102, -105), (103, -26),
  (105, 104), (107, 106), (109, 108), (111, 110), (-3, 112), (-7, 113), (-131, 114), (-144, 115),
  (117, 116), (118, -20), (120, 119), (122, 121), (124, 123), (126, 125), (128, 127), (-100, 129),
  (-8, 130), (132, 131), (134, 133), (135, -120), (-31, 136), (138, 137), (-234, -109), (140, 139),
  (142, 141), (144, 143), (145, -112), (146, -19), (148, 147), (-66, 149), (-145, 150), (-65, -13),
  (152, 151), (154, 153), (155, -30), (157, 156), (158, -99), (160, 159), (162, 161), (163, -23),
  (164, -29), (165, -11), (-115, 166), (168, 167), (170, 169), (171, -16), (172, -34), (-132, 173),
  (-108, 174), (-22, 175), (-9, 176), (-84, 177), (-37, -17), (178, -28), (180, 179), (182, 181),
  (184, 183), (186, 185), (-104, 187), (-78, 188), (-61, 189), (-178, -79), (-134, -59), (-25, 190),
  (-18, -83), (-57, 191), (192, -67), (193, -98), (-68, -12), (195, 194), (-128, -55), (-50, -24),
  (196, -70), (-33, -94), (-129, 197), (198, -74), (199, -82), (-87, -56), (200, -44), (201, -248),
  (-81, -163), (-123, -52), (-113, 202), (-41, -48), (-40, -122), (-90, 203), (204, -54), (-192, -86),
  (206, 205), (-130, 207), (208, -53), (-45, -133), (210, 209), (-91, 211), (213, 212), (-88, -106),
  (215, 214), (217, 216), (-49, 218), (220, 219), (222, 221), (224, 223), (226, 225), (-102, 227),
  (228, -160), (229, -46), (230, -127), (231, -103), (233, 232), (234, -60), (-76, 235), (-121, 236),
  (-73, 237), (238, -149), (-107, 239), (240, -35), (-27, -71), (241, -69), (-77, -89), (-118, -62),
  (-85, -75), (-58, -72), (-80, -63), (-42, 242), (-157, -150), (-236, -139), (-243, -126), (-214, -142),
  (-206, -138), (-146, -240), (-147, -204), (-201, -152), (-207, -227), (-209, -154), (-254, -153), (-156, -176),
  (-210, -165), (-185, -172), (-170, -195), (-211, -232), (-239, -219), (-177, -200), (-212, -175), (-143, -244),
  (-171, -246), (-221, -203), (-181, -202), (-250, -173), (-164, -184), (-218, -193), (-220, -199), (-249, -190),
  (-217, -230), (-216, -169), (-197, -191), (243, -47), (245, 244), (247, 246), (-159, -148), (249, 248),
  (-93, -92), (-225, -96), (-95, -151), (251, 250), (252, -241), (-36, -161), (254, 253), (-39, -135),
  (-124, -187), (-251, 255), (-238, -162), (-38, -242), (-125, -43), (-253, -215), (-208, -140), (-235, -137),
  (-237, -158), (-205, -136), (-141, -155), (-229, -228), (-168, -213), (-194, -224), (-226, -196), (-233, -183),
  (-167, -231), (-189, -174), (-166, -252), (-222, -198), (-179, -188), (-182, -223), (-186, -180), (-247, -245)
]

/-- Child lookup into the decompression table, entry `node`, side `leaf`
(net.py:351). -/
def decompressionTree (node leaf : Nat) : Int :=
  let e := decompressionTreeList.getD node (0, 0)
  if leaf = 0 then e.1 else e.2

/-- The while-loop of `Network.decompress` (net.py:347-368), with loop state
`(node, bitNum, srcPos, dest)` exactly as in the source: take the bit
`(buf[srcPos] >> (bitNum - 1)) & 1`, look it up in the tree; `-256` returns
`(dest, srcPos + 1)` immediately, any other value below 1 appends the byte
`0 - leafVal` to `dest` and resets the walk to node 0, a value of 1 or more
is the next node; the bit cursor then advances (into the next byte when the
current one is exhausted).  Leaving the loop (source exhausted) raises
`NoFullPacketError`. -/
def decompressLoop (buf : List Nat) (node bitNum srcPos : Nat) (dest : List Nat) :
    Except NetErr (List Nat × Nat) :=
  if h : srcPos < buf.length then
    let leaf := ((buf.getD srcPos 0) >>> (bitNum - 1)) &&& 1
    let leafVal := decompressionTree node leaf
    if leafVal = -256 then
      .ok (dest, srcPos + 1)
    else
      let dest' := if leafVal < 1 then dest ++ [(0 - leafVal).toNat] else dest
      let node' := if leafVal < 1 then 0 else leafVal.toNat
      if bitNum - 1 < 1 then
        decompressLoop buf node' 8 (srcPos + 1) dest'
      else
        decompressLoop buf node' (bitNum - 1) srcPos dest'
  else
    .error .noFullPacket
termination_by (buf.length - srcPos) * 8 + max bitNum 1
decreasing_by
  · omega
  · omega

/-- `Network.decompress` (net.py:336-368): run the tree walk from node 0,
bit 8 (most significant) of source byte 0. -/
def decompress (buf : List Nat) : Except NetErr (List Nat × Nat) :=
  decompressLoop buf 0 8 0 []

/-- Bit number `p` (counting from 0, most-significant-bit first across the
whole buffer) of the byte run `buf`. -/
def bitAt (buf : List Nat) (p : Nat) : Nat :=
  ((buf.getD (p / 8) 0) >>> (7 - p % 8)) &&& 1

/-- Decompression as the specification words it (spec §4.1): the fixed tree
is walked one bit at a time, most-significant-bit first, starting at the
root (node 0) for each new codeword; a child value of 1 or more is the next
node; the value -256 is the end-of-stream sentinel (stop, discard the
current partial byte, report the source bytes consumed); any other
non-positive value `v` emits output byte `0 - v` and resets the walk to the
root; if the source is exhausted mid-walk, signal an incomplete frame.  The
fuel argument counts the source bits not yet visited (`8 * length - p`). -/
def decompressSpecWalk (buf : List Nat) (node p : Nat) (dest : List Nat) :
    Nat → Except NetErr (List Nat × Nat)
  | 0 => .error .noFullPacket
  | rbits + 1 =>
    let v := decompressionTree node (bitAt buf p)
    if v = -256 then .ok (dest, p / 8 + 1)
    else if v < 1 then decompressSpecWalk buf 0 (p + 1) (dest ++ [(0 - v).toNat]) rbits
    else decompressSpecWalk buf v.toNat (p + 1) dest rbits

/-- Specification-level decompression of a whole buffer: walk all
`8 * length` source bits from the root. -/
def decompressSpec (buf : List Nat) : Except NetErr (List Nat × Nat) :=
  decompressSpecWalk buf 0 0 [] (8 * buf.length)

/-- `Network.recv` (net.py:297-334), one attempt on the current accumulation
buffer (the socket read that fills the buffer when it is empty has already
happened; a `NoFullPacketError` that makes the source sleep and retry is
returned as the error).  When compression is on, the buffer is decompressed
and `size` is the compressed source size; otherwise the raw buffer is the
message and `size` is the whole buffer length.  The decoded packet is
validated (`pkt.validate()`; the source then asserts `pkt.validated` and
`pkt.length == len(raw)`), and the consumed prefix is dropped from the
buffer. -/
def recv (compress : Bool) (buf : List Nat) :
    Except NetErr (DecodedPacket × List Nat) := do
  let (raw, size) ← if compress then decompress buf else .ok (buf, buf.length)
  if raw = [] then
    .error .notImplementedError
  else do
    let pkt ← phProcess raw
    let pkt ← validate pkt
    if pkt.length = raw.length then
      .ok (pkt, buf.drop size)
    else
      .error .assertFailed

/-- Errors raised by the client layer (`pyuo/client.py`): `StatusError` from
the `status` decorator, `KeyError` from a dict access on an unknown serial,
`AttributeError` from attribute access on a `None` player, and failed
`assert`s. -/
inductive ClientErr where
  | statusError
  | keyError
  | attributeError
  | assertionError
  deriving Repr, DecidableEq

/-- Event type constant `Event.EVT_HP_CHANGED` (brain.py:137). -/
def EVT_HP_CHANGED : Nat := 1

/-- Event type constant `Event.EVT_MANA_CHANGED` (brain.py:138). -/
def EVT_MANA_CHANGED : Nat := 2

/-- Event type constant `Event.EVT_STAM_CHANGED` (brain.py:139). -/
def EVT_STAM_CHANGED : Nat := 3

/-- `brain.Event` (brain.py:134-144) as the client constructs it in the
vitals branches: a type tag plus the `old`/`new` keyword values. -/
structure Event where
  type : Nat
  old : Option Nat
  new : Option Nat
  deriving Repr, DecidableEq

/-- A `Mobile` of `pyuo/client.py` (client.py:184-298), restricted to the
fields the verified dispatch branches touch.  Every field except the serial
starts out as `None`. -/
structure Mobile where
  serial : Nat
  graphic : Option Nat := none
  color : Option Nat := none
  x : Option Nat := none
  y : Option Nat := none
  hp : Option Nat := none
  maxhp : Option Nat := none
  mana : Option Nat := none
  maxmana : Option Nat := none
  stam : Option Nat := none
  maxstam : Option Nat := none
  deriving Repr, DecidableEq

/-- The client's world/session state used by the dispatch loop: the
`lc` (login complete) flag, the player's serial, the `objects` dict (serial
to object; the player is the entry at `playerSerial`, modelling the source's
aliasing of `self.player` into `self.objects`), and the brain's event queue
(`script.event` appends to it). -/
structure GameState where
  lc : Bool
  playerSerial : Nat
  objects : List (Nat × Mobile)
  events : List Event
  deriving Repr, DecidableEq

/-- Dict lookup `self.objects[serial]` (first binding wins, as in a dict with
unique keys). -/
def findObj (serial : Nat) : List (Nat × Mobile) → Option Mobile
  | [] => none
  | (s, m) :: rest => if s = serial then some m else findObj serial rest

/-- In-place mutation of the object stored under `serial`. -/
def updateObj (serial : Nat) (f : Mobile → Mobile) :
    List (Nat × Mobile) → List (Nat × Mobile)
  | [] => []
  | (s, m) :: rest =>
    if s = serial then (s, f m) :: updateObj serial f rest
    else (s, m) :: updateObj serial f rest

/-- The three vitals message kinds (health/mana/stamina). -/
inductive VitalKind where
  | hp
  | mana
  | stam
  deriving Repr, DecidableEq

/-- The field assignment each vital kind's branch performs on the addressed
object (`maxhp = pkt.max; hp = pkt.cur` and so on). -/
def vitalUpd : VitalKind → Nat → Nat → Mobile → Mobile
  | .hp, maxv, cur, m => { m with maxhp := some maxv, hp := some cur }
  | .mana, maxv, cur, m => { m with maxmana := some maxv, mana := some cur }
  | .stam, maxv, cur, m => { m with maxstam := some maxv, stam := some cur }

/-- Common tail of the three vitals branches (client.py:648, 662, 676): read
`self.player.<vital>` again after the update and enqueue
`Event(type, old=old, new=self.player.<vital>)` via `script.event`. -/
def finishVital (ty : Nat) (old : Option Nat) (pickNew : Mobile → Option Nat)
    (objects : List (Nat × Mobile)) (st : GameState) :
    Except ClientErr GameState :=
  match findObj st.playerSerial objects with
  | none => .error .attributeError
  | some playerAfter =>
    .ok { st with objects := objects,
                  events := st.events ++ [⟨ty, old, pickNew playerAfter⟩] }

/-- The `UpdateHealthPacket` branch of `Client.play` (client.py:636-648):
`assert self.lc`; `old = self.player.hp`; if the packet addresses the player
set the player's `maxhp`/`hp`, otherwise set them on
`self.objects[pkt.serial]`; then enqueue
`Event(EVT_HP_CHANGED, old=old, new=self.player.hp)`. -/
def handleUpdateHealth (serial maxv cur : Nat) (st : GameState) :
    Except ClientErr GameState :=
  if st.lc = false then .error .assertionError
  else
    match findObj st.playerSerial st.objects with
    | none => .error .attributeError
    | some player =>
      let old := player.hp
      if st.playerSerial = serial then
        finishVital EVT_HP_CHANGED old Mobile.hp
          (updateObj serial (vitalUpd .hp maxv cur) st.objects) st
      else
        match findObj serial st.objects with
        | none => .error .keyError
        | some _ =>
          finishVital EVT_HP_CHANGED old Mobile.hp
            (updateObj serial (vitalUpd .hp maxv cur) st.objects) st

/-- The `UpdateManaPacket` branch of `Client.play` (client.py:650-662),
structured exactly like the health branch but over `mana`/`maxmana` and
`EVT_MANA_CHANGED`. -/
def handleUpdateMana (serial maxv cur : Nat) (st : GameState) :
    Except ClientErr GameState :=
  if st.lc = false then .error .assertionError
  else
    match findObj st.playerSerial st.objects with
    | none => .error .attributeError
    | some player =>
      let old := player.mana
      if st.playerSerial = serial then
        finishVital EVT_MANA_CHANGED old Mobile.mana
          (updateObj serial (vitalUpd .mana maxv cur) st.objects) st
      else
        match findObj serial st.objects with
        | none => .error .keyError
        | some _ =>
          finishVital EVT_MANA_CHANGED old Mobile.mana
            (updateObj serial (vitalUpd .mana maxv cur) st.objects) st

/-- The `UpdateStaminaPacket` branch of `Client.play` (client.py:664-676),
structured exactly like the health branch but over `stam`/`maxstam` and
`EVT_STAM_CHANGED`. -/
def handleUpdateStamina (serial maxv cur : Nat) (st : GameState) :
    Except ClientErr GameState :=
  if st.lc = false then .error .assertionError
  else
    match findObj st.playerSerial st.objects with
    | none => .error .attributeError
    | some player =>
      let old := player.stam
      if st.playerSerial = serial then
        finishVital EVT_STAM_CHANGED old Mobile.stam
          (updateObj serial (vitalUpd .stam maxv cur) st.objects) st
      else
        match findObj serial st.objects with
        | none => .error .keyError
        | some _ =>
          finishVital EVT_STAM_CHANGED old Mobile.stam
            (updateObj serial (vitalUpd .stam maxv cur) st.objects) st

/-- The dispatch-loop branch handling the vital message of the given kind. -/
def vitalHandler : VitalKind → Nat → Nat → Nat → GameState → Except ClientErr GameState
  | .hp => handleUpdateHealth
  | .mana => handleUpdateMana
  | .stam => handleUpdateStamina

/-- The current-value field a vital kind updates. -/
def vitalCur : VitalKind → Mobile → Option Nat
  | .hp => Mobile.hp
  | .mana => Mobile.mana
  | .stam => Mobile.stam

/-- The max-value field a vital kind updates. -/
def vitalMax : VitalKind → Mobile → Option Nat
  | .hp => Mobile.maxhp
  | .mana => Mobile.maxmana
  | .stam => Mobile.maxstam

/-- The event type each vital kind's branch enqueues. -/
def vitalEvtType : VitalKind → Nat
  | .hp => EVT_HP_CHANGED
  | .mana => EVT_MANA_CHANGED
  | .stam => EVT_STAM_CHANGED


/-- A message sent to the server, at the granularity the state-machine claims
need: either raw bytes or a built packet identified by its command byte. -/
inductive SentMsg where
  | rawBytes (bytes : List Nat)
  | packet (cmd : Nat)
  deriving Repr, DecidableEq

/-- The session-level client state for the state-machine claims: the
`self.status` string and the ordered list of messages sent so far. -/
structure ClientState where
  status : String
  sent : List SentMsg
  deriving Repr, DecidableEq

/-- The `status` decorator (client.py:43-54): if `self.status` differs from
the required status, raise `StatusError` before the wrapped method runs
(state untouched, nothing sent); otherwise run the method. -/
def statusGuard (required : String)
    (f : ClientState → ClientState × Except ClientErr Unit) :
    ClientState → ClientState × Except ClientErr Unit :=
  fun c => if c.status ≠ required then (c, .error .statusError) else f c

/-- Body of `Client.connect` (client.py:404-438): send the IP as key (raw
bytes), send the login request packet 0x80, receive the server list, set
status to `connected`.  Network replies are not modelled. -/
def connectBody (ip : List Nat) (c : ClientState) :
    ClientState × Except ClientErr Unit :=
  ({ status := "connected",
     sent := c.sent ++ [.rawBytes ip, .packet 0x80] }, .ok ())

/-- `Client.connect` with its `@status('disconnected')` decorator. -/
def connect (ip : List Nat) : ClientState → ClientState × Except ClientErr Unit :=
  statusGuard "disconnected" (connectBody ip)

/-- Body of `Client.selectServer` (client.py:440-479): send the raw server
choice `>BH (0xa0, idx)`, reconnect, send the raw session key, send the game
login packet 0x91, flip compression on, receive features and characters, set
status to `loggedin`. -/
def selectServerBody (idx : Nat) (key : List Nat) (c : ClientState) :
    ClientState × Except ClientErr Unit :=
  ({ status := "loggedin",
     sent := c.sent ++ [.rawBytes [0xa0, idx / 256 % 256, idx % 256],
                        .rawBytes key, .packet 0x91] }, .ok ())

/-- `Client.selectServer` with its `@status('connected')` decorator. -/
def selectServer (idx : Nat) (key : List Nat) :
    ClientState → ClientState × Except ClientErr Unit :=
  statusGuard "connected" (selectServerBody idx key)

/-- Body of `Client.selectCharacter` (client.py:481-500): send the character
login packet 0x5d and set status to `game`; no reply is awaited. -/
def selectCharacterBody (c : ClientState) : ClientState × Except ClientErr Unit :=
  ({ status := "game", sent := c.sent ++ [.packet 0x5d] }, .ok ())

/-- `Client.selectCharacter` with its `@status('loggedin')` decorator. -/
def selectCharacter : ClientState → ClientState × Except ClientErr Unit :=
  statusGuard "loggedin" selectCharacterBody

/-- Body of `Client.play` (client.py:502-782): the endless dispatch loop.
Its per-message effects are modelled by the handlers above; for the
state-machine claim only the guarded entry matters, so the body is the
loop entry itself. -/
def playBody (c : ClientState) : ClientState × Except ClientErr Unit :=
  (c, .ok ())

/-- `Client.play` with its `@status('game')` decorator. -/
def play : ClientState → ClientState × Except ClientErr Unit :=
  statusGuard "game" playBody

/-- Errors raised by `pyuo/brain.py`: the `NotImplementedError` for an
unknown event type in `Brain.processEvents`. -/
inductive BrainErr where
  | notImplementedError
  deriving Repr, DecidableEq

/-- `Brain.event` (brain.py:93-100): append the event to the right end of
the deque (under the queue lock). -/
def brainEvent (ev : Event) (queue : List Event) : List Event :=
  queue ++ [ev]

/-- `Brain.processEvents` (brain.py:78-91): pop events from the left until
the queue is empty; an `EVT_HP_CHANGED` event dispatches
`onHpChange(ev.old, ev.new)` (collected here in call order), any other event
type raises `NotImplementedError`. -/
def processEvents : List Event → Except BrainErr (List (Option Nat × Option Nat))
  | [] => .ok []
  | ev :: rest =>
    if ev.type = EVT_HP_CHANGED then
      match processEvents rest with
      | .ok calls => .ok ((ev.old, ev.new) :: calls)
      | .error e => .error e
    else .error .notImplementedError

/-- One operation on the event channel: a producer-side `Brain.event` push
or a consumer-side drain (`Brain.processEvents`'s popleft loop, viewed as
queue mechanics). -/
inductive ChannelOp where
  | push (ev : Event)
  | drain
  deriving Repr, DecidableEq

/-- The popleft loop of `Brain.processEvents`, viewed only as queue
mechanics: pop from the front until empty, returning the popped events in
pop order. -/
def drainQueue : List Event → List Event
  | [] => []
  | ev :: rest => ev :: drainQueue rest

/-- Run a sequence of channel operations against the queue (each operation
is atomic under `eventsLock`, so any concurrent execution is some such
sequence).  Returns the final queue and the concatenated drain output in
drain order. -/
def runChannelOps : List ChannelOp → List Event → List Event × List Event
  | [], q => (q, [])
  | .push ev :: ops, q => runChannelOps ops (brainEvent ev q)
  | .drain :: ops, q =>
    let (qf, out) := runChannelOps ops []
    (qf, drainQueue q ++ out)

/-- The events pushed by a sequence of channel operations, in push order. -/
def pushedOf : List ChannelOp → List Event
  | [] => []
  | .push ev :: ops => ev :: pushedOf ops
  | .drain :: ops => pushedOf ops

/-- Big-endian 16-bit encoding of a value, for building test buffers. -/
def u16 (v : Nat) : List Nat :=
  [v / 256 % 256, v % 256]

/-- Big-endian 32-bit encoding of a value, for building test buffers. -/
def u32 (v : Nat) : List Nat :=
  [v / 16777216 % 256, v / 65536 % 256, v / 256 % 256, v % 256]

/-- A hand-built `ObjectInfoPacket` (cmd 0x1a) buffer exercising the three
independent presence bits: bit 15 of the raw `x` word (`bx`), bit 15 of the
raw `y` word (`by15`), bit 14 of the raw `y` word (`by14`).  Payload values:
serial 0x1001 (bit 31 clear), graphic 0x190 (bit 15 clear), x-payload 100,
y-payload 200, facing byte 2, z byte 5, color word 0x35, flag byte 0x20. -/
def mkObjBuf (bx by15 by14 : Bool) : List Nat :=
  let xw := (if bx then 0x8000 else 0) + 100
  let yw := (if by15 then 0x8000 else 0) + (if by14 then 0x4000 else 0) + 200
  let len := 14 + (if bx then 1 else 0) + (if by15 then 2 else 0) +
             (if by14 then 1 else 0)
  [0x1a] ++ u16 len ++ u32 0x1001 ++ u16 0x190 ++ u16 xw ++ u16 yw ++
    (if bx then [2] else []) ++ [5] ++
    (if by15 then u16 0x35 else []) ++ (if by14 then [0x20] else [])

/-- Compressed encoding of the ping packet `[0x73, 0x00]` under the fixed
tree (codewords for 0x73, 0x00 and the end-of-stream sentinel, padded to a
byte boundary). -/
def pingCompressedA : List Nat := [118, 52]

/-- Compressed encoding of the ping packet `[0x73, 0x01]` under the fixed
tree. -/
def pingCompressedB : List Nat := [118, 254, 128]

/-- A world state after login: player serial 1 with 77/100 hit points, and a
second known mobile with serial 0x1001 whose vitals are still unknown. -/
def exWorld : GameState :=
  { lc := true
    playerSerial := 1
    objects := [(1, { serial := 1, hp := some 77, maxhp := some 100 }),
                (0x1001, { serial := 0x1001 })]
    events := [] }

lemma isOk_ok {ε α : Type} (x : α) : (Except.ok x : Except ε α).isOk = true := rfl

lemma isOk_error {ε α : Type} (e : ε) :
    (Except.error e : Except ε α).isOk = false := rfl

lemma bind_ok {ε α β : Type} (x : α) (f : α → Except ε β) :
    (Except.ok x : Except ε α) >>= f = f x := rfl

lemma bind_error {ε α β : Type} (e : ε) (f : α → Except ε β) :
    (Except.error e : Except ε α) >>= f = .error e := rfl

lemma pb_isOk_iff (n : Nat) (p : PacketBuf) : (pb n p).isOk ↔ n ≤ p.buf.length := by
  unfold pb
  split
  · rename_i h
    rw [isOk_error]
    constructor
    · intro hc
      cases hc
    · intro hc
      omega
  · rename_i h
    rw [isOk_ok]
    constructor
    · intro _
      omega
    · intro _
      rfl

lemma uchar_isOk_iff (p : PacketBuf) : (uchar p).isOk ↔ 1 ≤ p.buf.length := by
  rw [← pb_isOk_iff]
  unfold uchar
  cases h : pb 1 p <;> simp [h, bind_ok, bind_error, isOk_ok, isOk_error]

lemma schar_isOk_iff (p : PacketBuf) : (schar p).isOk ↔ 1 ≤ p.buf.length := by
  rw [← pb_isOk_iff]
  unfold schar
  cases h : pb 1 p <;> simp [h, bind_ok, bind_error, isOk_ok, isOk_error]

lemma ushort_isOk_iff (p : PacketBuf) : (ushort p).isOk ↔ 2 ≤ p.buf.length := by
  rw [← pb_isOk_iff]
  unfold ushort
  cases h : pb 2 p <;> simp [h, bind_ok, bind_error, isOk_ok, isOk_error]

lemma uint_isOk_iff (p : PacketBuf) : (uint p).isOk ↔ 4 ≤ p.buf.length := by
  rw [← pb_isOk_iff]
  unfold uint
  cases h : pb 4 p <;> simp [h, bind_ok, bind_error, isOk_ok, isOk_error]

/-- C7: every primitive read of the byte cursor with `r` bytes remaining
fails with the out-of-data error (`EOFError`) exactly when it requests more
than `r` bytes; otherwise it consumes exactly the requested bytes and
advances `readCount` by that amount, so no packet decoder can read past the
end of its buffer. -/
theorem c7_cursor_bounds (p : PacketBuf) (n : Nat) :
    ((pb n p).isOk ↔ n ≤ p.buf.length) ∧
    (∀ e, pb n p = .error e → e = .eofError ∧ n > p.buf.length) ∧
    (∀ bs p', pb n p = .ok (bs, p') →
      bs.length = n ∧ p'.readCount = p.readCount + n ∧
      p'.buf.length = p.buf.length - n ∧ p.buf = bs ++ p'.buf) ∧
    ((uchar p).isOk ↔ 1 ≤ p.buf.length) ∧
    ((schar p).isOk ↔ 1 ≤ p.buf.length) ∧
    ((ushort p).isOk ↔ 2 ≤ p.buf.length) ∧
    ((uint p).isOk ↔ 4 ≤ p.buf.length) ∧
    ((stringRaw n p).isOk ↔ n ≤ p.buf.length) ∧
    ((ipRead p).isOk ↔ 4 ≤ p.buf.length) := by
  refine ⟨pb_isOk_iff n p, ?_, ?_, uchar_isOk_iff p, schar_isOk_iff p,
    ushort_isOk_iff p, uint_isOk_iff p, pb_isOk_iff n p, pb_isOk_iff 4 p⟩
  · intro e he
    unfold pb at he
    split at he
    · cases he
      constructor
      · rfl
      · omega
    · cases he
  · intro bs p' hok
    unfold pb at hok
    split at hok
    · cases hok
    · cases hok
      refine ⟨?_, rfl, ?_, ?_⟩
      · simp
        omega
      · simp
      · exact (List.take_append_drop n p.buf).symm

/-- Witness for C7 at a concrete cursor: reading 2 of 3 remaining bytes. -/
theorem c7_witness :
    ([10, 20] : List Nat).length = 2 ∧
    (⟨[30], 2⟩ : PacketBuf).readCount = 0 + 2 ∧
    (⟨[30], 2⟩ : PacketBuf).buf.length = ([10, 20, 30] : List Nat).length - 2 ∧
    ([10, 20, 30] : List Nat) = [10, 20] ++ (⟨[30], 2⟩ : PacketBuf).buf :=
  (c7_cursor_bounds ⟨[10, 20, 30], 0⟩ 2).2.2.1 [10, 20] ⟨[30], 2⟩ (by decide)

/-- C5: `Packet.validate` raises the length-mismatch error exactly when the
declared on-wire length differs from the bytes consumed by the decoder, and
a successful validation marks the packet validated without changing anything
else; since `Network.recv` validates every decoded packet, no decode is
silently truncated or overrun. -/
theorem c5_validate_length (p : DecodedPacket) :
    ((validate p).isOk ↔ p.length = p.readCount) ∧
    (p.length ≠ p.readCount → validate p = .error .lenMismatch) ∧
    (∀ q, validate p = .ok q → q.validated = true ∧ q.length = p.length ∧
      q.readCount = p.readCount ∧ q.cmd = p.cmd ∧ q.body = p.body) := by
  unfold validate
  split
  · rename_i hne
    refine ⟨?_, fun _ => rfl, ?_⟩
    · simp only [Except.isOk, Except.toBool]
      simp [hne]
    · intro q hq
      cases hq
  · rename_i heq
    push_neg at heq
    refine ⟨?_, fun h => absurd heq h, ?_⟩
    · simp only [Except.isOk, Except.toBool]
      simp [heq]
    · intro q hq
      cases hq
      exact ⟨rfl, rfl, rfl, rfl, rfl⟩

/-- Witness for C5 at a concrete packet: a ping whose declared length 2
matches the 2 bytes consumed validates and is marked validated. -/
theorem c5_witness :
    (⟨0x73, 2, 2, true, GamePacket.ping 0⟩ : DecodedPacket).validated = true ∧
    (⟨0x73, 2, 2, true, GamePacket.ping 0⟩ : DecodedPacket).length = 2 ∧
    (⟨0x73, 2, 2, true, GamePacket.ping 0⟩ : DecodedPacket).readCount = 2 ∧
    (⟨0x73, 2, 2, true, GamePacket.ping 0⟩ : DecodedPacket).cmd = 0x73 ∧
    (⟨0x73, 2, 2, true, GamePacket.ping 0⟩ : DecodedPacket).body = .ping 0 :=
  (c5_validate_length ⟨0x73, 2, 2, false, .ping 0⟩).2.2
    ⟨0x73, 2, 2, true, .ping 0⟩ (by decide)

/-- C6: in all 8 combinations of the three independent presence bits of the
0x1a item-info message, the decoded `facing` is populated exactly when bit 15
of the raw x word is set, `color` exactly when bit 15 of the raw y word,
`flag` exactly when bit 14 of the raw y word, and the stored coordinates are
the masked remainders `x & 0x7fff` and `y & 0x3fff`. -/
theorem c6_objectinfo_presence_bits : ∀ bx by15 by14 : Bool,
    objectInfoPacket (mkObjBuf bx by15 by14) =
      .ok ⟨0x1a,
           14 + (if bx then 1 else 0) + (if by15 then 2 else 0) +
             (if by14 then 1 else 0),
           14 + (if bx then 1 else 0) + (if by15 then 2 else 0) +
             (if by14 then 1 else 0),
           false,
           .objectInfo ⟨0x1001, 0x190, none, 100, 200,
             (if bx then some 2 else none), 5,
             (if by15 then some 0x35 else none),
             (if by14 then some 0x20 else none)⟩⟩ := by
  decide

/-- C8: each session method asserts its precondition state (`connect`
requires `disconnected`, `selectServer` requires `connected`,
`selectCharacter` requires `loggedin`, `play` requires `game`); called in any
other state it raises `StatusError` with the state unchanged and nothing
sent, and in the right state it proceeds to the next state. -/
theorem c8_status_machine (c : ClientState) (ip key : List Nat) (idx : Nat) :
    (c.status ≠ "disconnected" → connect ip c = (c, .error .statusError)) ∧
    (c.status ≠ "connected" → selectServer idx key c = (c, .error .statusError)) ∧
    (c.status ≠ "loggedin" → selectCharacter c = (c, .error .statusError)) ∧
    (c.status ≠ "game" → play c = (c, .error .statusError)) ∧
    (c.status = "disconnected" →
      (connect ip c).1.status = "connected" ∧ (connect ip c).2 = .ok ()) ∧
    (c.status = "connected" →
      (selectServer idx key c).1.status = "loggedin" ∧
      (selectServer idx key c).2 = .ok ()) ∧
    (c.status = "loggedin" →
      (selectCharacter c).1.status = "game" ∧ (selectCharacter c).2 = .ok ()) ∧
    (c.status = "game" → play c = (c, .ok ())) := by
  refine ⟨?_, ?_, ?_, ?_, ?_, ?_, ?_, ?_⟩ <;> intro h <;>
    simp [connect, selectServer, selectCharacter, play, statusGuard,
          connectBody, selectServerBody, selectCharacterBody, playBody, h]

/-- Witness for C8 at a concrete state: calling `selectServer` while still
disconnected fails with `StatusError` and sends nothing. -/
theorem c8_witness :
    selectServer 0 [1, 2, 3, 4] ⟨"disconnected", []⟩ =
      (⟨"disconnected", []⟩, .error .statusError) :=
  (c8_status_machine ⟨"disconnected", []⟩ [] [1, 2, 3, 4] 0).2.1 (by decide)

lemma drainQueue_eq (q : List Event) : drainQueue q = q := by
  induction q with
  | nil => rfl
  | cons ev rest ih => simp [drainQueue, ih]

lemma runChannelOps_flow (ops : List ChannelOp) :
    ∀ q : List Event,
      (runChannelOps ops q).2 ++ (runChannelOps ops q).1 = q ++ pushedOf ops := by
  induction ops with
  | nil =>
    intro q
    simp [runChannelOps, pushedOf]
  | cons op ops ih =>
    intro q
    cases op with
    | push ev =>
      simp only [runChannelOps, pushedOf]
      rw [ih (brainEvent ev q)]
      simp [brainEvent]
    | drain =>
      simp only [runChannelOps, pushedOf, drainQueue_eq]
      rw [List.append_assoc, ih []]
      simp

lemma runChannelOps_final_drain (ops : List ChannelOp) :
    ∀ q : List Event,
      runChannelOps (ops ++ [.drain]) q =
        ([], (runChannelOps ops q).2 ++ (runChannelOps ops q).1) := by
  induction ops with
  | nil =>
    intro q
    simp [runChannelOps, drainQueue_eq]
  | cons op ops ih =>
    intro q
    cases op with
    | push ev =>
      simp only [List.cons_append, runChannelOps]
      exact ih (brainEvent ev q)
    | drain =>
      simp only [List.cons_append, runChannelOps, drainQueue_eq]
      simp only [List.append_eq]
      rw [ih []]
      simp [List.append_assoc]

/-- C9: the event channel is FIFO and lossless.  For any sequence of
push/drain operations (each atomic under the queue lock, so any concurrent
execution is such a sequence), the concatenated drain output followed by the
events still queued equals the initial queue followed by the pushed events in
push order; after a final drain the queue is empty and the total drained
output is exactly the pushed events, in order, each exactly once. -/
theorem c9_channel_fifo_lossless (ops : List ChannelOp) (q : List Event) :
    ((runChannelOps ops q).2 ++ (runChannelOps ops q).1 = q ++ pushedOf ops) ∧
    ((runChannelOps (ops ++ [.drain]) []).1 = [] ∧
     (runChannelOps (ops ++ [.drain]) []).2 = pushedOf ops) := by
  refine ⟨runChannelOps_flow ops q, ?_, ?_⟩
  · rw [runChannelOps_final_drain ops []]
  · rw [runChannelOps_final_drain ops []]
    simpa using runChannelOps_flow ops []

/-- C10: `Brain.processEvents` handles only HP-changed events: draining a
queue whose first non-HP event has any other type — in particular the
mana-changed and stamina-changed events the dispatch loop itself enqueues —
raises `NotImplementedError` instead of invoking a handler. -/
theorem c10_non_hp_events_raise :
    (∀ pre (ev : Event) rest,
      (∀ e ∈ pre, Event.type e = EVT_HP_CHANGED) → ev.type ≠ EVT_HP_CHANGED →
      processEvents (pre ++ ev :: rest) = .error .notImplementedError) ∧
    (∀ old new rest,
      processEvents (⟨EVT_MANA_CHANGED, old, new⟩ :: rest) =
        .error .notImplementedError) ∧
    (∀ old new rest,
      processEvents (⟨EVT_STAM_CHANGED, old, new⟩ :: rest) =
        .error .notImplementedError) ∧
    vitalEvtType .mana ≠ EVT_HP_CHANGED ∧ vitalEvtType .stam ≠ EVT_HP_CHANGED := by
  have head : ∀ (ev : Event) rest, ev.type ≠ EVT_HP_CHANGED →
      processEvents (ev :: rest) = .error .notImplementedError := by
    intro ev rest hne
    simp [processEvents, hne]
  refine ⟨?_, ?_, ?_, by decide, by decide⟩
  · intro pre
    induction pre with
    | nil =>
      intro ev rest _ hne
      exact head ev rest hne
    | cons e pre ih =>
      intro ev rest hpre hne
      have he : e.type = EVT_HP_CHANGED := hpre e (by simp)
      have tail := ih ev rest (fun x hx => hpre x (by simp [hx])) hne
      simp [processEvents, he, tail]
  · intro old new rest
    exact head ⟨EVT_MANA_CHANGED, old, new⟩ rest
      (by simp [EVT_MANA_CHANGED, EVT_HP_CHANGED])
  · intro old new rest
    exact head ⟨EVT_STAM_CHANGED, old, new⟩ rest
      (by simp [EVT_STAM_CHANGED, EVT_HP_CHANGED])

/-- Witness for C10 at a concrete queue: one HP event followed by the
mana-changed event the mana branch enqueues. -/
theorem c10_witness :
    processEvents [⟨EVT_HP_CHANGED, some 1, some 2⟩, ⟨EVT_MANA_CHANGED, none, some 3⟩] =
      .error .notImplementedError :=
  c10_non_hp_events_raise.1 [⟨EVT_HP_CHANGED, some 1, some 2⟩]
    ⟨EVT_MANA_CHANGED, none, some 3⟩ [] (by decide) (by decide)

lemma statusBarFieldOrder_min6 (f : Nat) :
    statusBarFieldOrder f = statusBarFieldOrder (min f 6) := by
  rcases le_or_lt 6 f with h | h
  · have h6 : min f 6 = 6 := by omega
    rw [h6]
    unfold statusBarFieldOrder
    have h5 : 5 ≤ f := by omega
    have h3 : 3 ≤ f := by omega
    have h4 : 4 ≤ f := by omega
    simp [h, h5, h3, h4]
  · have h6 : min f 6 = f := by omega
    rw [h6]

lemma statusBarFieldOrder_mono_core : ∀ a b : Nat, a ≤ 6 → b ≤ 6 → a ≤ b →
    (¬ (3 ≤ a ∧ a < 5 ∧ 5 ≤ b) →
      statusBarFieldOrder a <+: statusBarFieldOrder b) ∧
    (3 ≤ a → a < 5 → 5 ≤ b →
      ¬ statusBarFieldOrder a <+: statusBarFieldOrder b) := by
  intro a b ha hb hab
  interval_cases a <;> interval_cases b <;>
    refine ⟨fun hx => ?_, fun u v w => ?_⟩ <;>
    first
      | decide
      | exact absurd (by decide) hx
      | omega

/-- C2 (amended): the severity byte of the 0x11 status report gates the
field tiers in wire order base, weight/race (severity 5 and above),
cap/followers (3 and above), resistances (4 and above), increments (6 and
above).  For severities `a < b` the fields decoded at `a` are a prefix of
those decoded at `b` except when exactly the weight/race tier separates
them (`3 ≤ a < 5 ≤ b`), because the weight/race fields sit before the
cap/followers fields on the wire; in that excepted case the prefix relation
provably fails. -/
theorem c2_severity_tiers_amended (a b : Nat) (hab : a < b) :
    (¬ (3 ≤ a ∧ a < 5 ∧ 5 ≤ b) →
      statusBarFieldOrder a <+: statusBarFieldOrder b) ∧
    (3 ≤ a → a < 5 → 5 ≤ b →
      ¬ statusBarFieldOrder a <+: statusBarFieldOrder b) := by
  rw [statusBarFieldOrder_min6 a, statusBarFieldOrder_min6 b]
  have core := statusBarFieldOrder_mono_core (min a 6) (min b 6)
    (by omega) (by omega) (by omega)
  constructor
  · intro hx
    refine core.1 ?_
    rintro ⟨u, v, w⟩
    exact hx ⟨by omega, by omega, by omega⟩
  · intro h3 h5 hb5
    exact core.2 (by omega) (by omega) (by omega)

/-- Counterexample to C2 as stated: severity 3 < 5, yet the fields decoded
at severity 3 are not a prefix of the fields decoded at severity 5 (severity
5 inserts maxweight/race before statcap). -/
theorem c2_counterexample :
    3 < 5 ∧ ¬ statusBarFieldOrder 3 <+: statusBarFieldOrder 5 := by
  decide

/-- Witness for C2 (amended) at a concrete pair: severity 3's fields are a
prefix of severity 4's. -/
theorem c2_witness : statusBarFieldOrder 3 <+: statusBarFieldOrder 4 :=
  (c2_severity_tiers_amended 3 4 (by decide)).1 (by decide)

lemma findObj_updateObj_self (serial : Nat) (f : Mobile → Mobile) :
    ∀ objs, findObj serial (updateObj serial f objs) =
      (findObj serial objs).map f := by
  intro objs
  induction objs with
  | nil => rfl
  | cons kv rest ih =>
    obtain ⟨s, m⟩ := kv
    by_cases h : s = serial
    · simp [updateObj, findObj, h]
    · simp [updateObj, findObj, h, ih]

lemma findObj_updateObj_ne (s2 serial : Nat) (f : Mobile → Mobile)
    (hne : s2 ≠ serial) :
    ∀ objs, findObj s2 (updateObj serial f objs) = findObj s2 objs := by
  intro objs
  have hne2 : serial ≠ s2 := fun hc => hne hc.symm
  induction objs with
  | nil => rfl
  | cons kv rest ih =>
    obtain ⟨s, m⟩ := kv
    by_cases h1 : s = serial <;> by_cases h2 : s = s2 <;>
      simp [updateObj, findObj, h1, h2, hne, hne2, ih]

lemma finishVital_eq (ty : Nat) (old : Option Nat) (pick : Mobile → Option Nat)
    (objs : List (Nat × Mobile)) (st : GameState) (pm2 : Mobile)
    (h : findObj st.playerSerial objs = some pm2) :
    finishVital ty old pick objs st =
      .ok { st with objects := objs,
                    events := st.events ++ [⟨ty, old, pick pm2⟩] } := by
  unfold finishVital
  rw [h]

lemma handleUpdateHealth_eq (st : GameState) (serial maxv cur : Nat)
    (pm m : Mobile) (hlc : st.lc = true)
    (hpm : findObj st.playerSerial st.objects = some pm)
    (hm : findObj serial st.objects = some m) :
    handleUpdateHealth serial maxv cur st = .ok
      { st with objects := updateObj serial (vitalUpd .hp maxv cur) st.objects,
                events := st.events ++ [⟨EVT_HP_CHANGED, pm.hp,
                  if st.playerSerial = serial then some cur else pm.hp⟩] } := by
  unfold handleUpdateHealth
  rw [hlc]
  simp only [hpm]
  by_cases hps : st.playerSerial = serial
  · have hpm2 : findObj st.playerSerial
        (updateObj serial (vitalUpd .hp maxv cur) st.objects) =
        some (vitalUpd .hp maxv cur pm) := by
      rw [hps, findObj_updateObj_self]
      rw [hps] at hpm
      rw [hpm]
      rfl
    simp only [if_pos hps, finishVital_eq _ _ _ _ _ _ hpm2]
    simp [hlc, vitalUpd]
  · have hpm2 : findObj st.playerSerial
        (updateObj serial (vitalUpd .hp maxv cur) st.objects) = some pm := by
      rw [findObj_updateObj_ne _ _ _ hps, hpm]
    simp only [if_neg hps, hm, finishVital_eq _ _ _ _ _ _ hpm2]
    simp [hlc]

lemma handleUpdateMana_eq (st : GameState) (serial maxv cur : Nat)
    (pm m : Mobile) (hlc : st.lc = true)
    (hpm : findObj st.playerSerial st.objects = some pm)
    (hm : findObj serial st.objects = some m) :
    handleUpdateMana serial maxv cur st = .ok
      { st with objects := updateObj serial (vitalUpd .mana maxv cur) st.objects,
                events := st.events ++ [⟨EVT_MANA_CHANGED, pm.mana,
                  if st.playerSerial = serial then some cur else pm.mana⟩] } := by
  unfold handleUpdateMana
  rw [hlc]
  simp only [hpm]
  by_cases hps : st.playerSerial = serial
  · have hpm2 : findObj st.playerSerial
        (updateObj serial (vitalUpd .mana maxv cur) st.objects) =
        some (vitalUpd .mana maxv cur pm) := by
      rw [hps, findObj_updateObj_self]
      rw [hps] at hpm
      rw [hpm]
      rfl
    simp only [if_pos hps, finishVital_eq _ _ _ _ _ _ hpm2]
    simp [hlc, vitalUpd]
  · have hpm2 : findObj st.playerSerial
        (updateObj serial (vitalUpd .mana maxv cur) st.objects) = some pm := by
      rw [findObj_updateObj_ne _ _ _ hps, hpm]
    simp only [if_neg hps, hm, finishVital_eq _ _ _ _ _ _ hpm2]
    simp [hlc]

lemma handleUpdateStamina_eq (st : GameState) (serial maxv cur : Nat)
    (pm m : Mobile) (hlc : st.lc = true)
    (hpm : findObj st.playerSerial st.objects = some pm)
    (hm : findObj serial st.objects = some m) :
    handleUpdateStamina serial maxv cur st = .ok
      { st with objects := updateObj serial (vitalUpd .stam maxv cur) st.objects,
                events := st.events ++ [⟨EVT_STAM_CHANGED, pm.stam,
                  if st.playerSerial = serial then some cur else pm.stam⟩] } := by
  unfold handleUpdateStamina
  rw [hlc]
  simp only [hpm]
  by_cases hps : st.playerSerial = serial
  · have hpm2 : findObj st.playerSerial
        (updateObj serial (vitalUpd .stam maxv cur) st.objects) =
        some (vitalUpd .stam maxv cur pm) := by
      rw [hps, findObj_updateObj_self]
      rw [hps] at hpm
      rw [hpm]
      rfl
    simp only [if_pos hps, finishVital_eq _ _ _ _ _ _ hpm2]
    simp [hlc, vitalUpd]
  · have hpm2 : findObj st.playerSerial
        (updateObj serial (vitalUpd .stam maxv cur) st.objects) = some pm := by
      rw [findObj_updateObj_ne _ _ _ hps, hpm]
    simp only [if_neg hps, hm, finishVital_eq _ _ _ _ _ _ hpm2]
    simp [hlc]

/-- C1 (amended): after login, a vitals message addressed to a known serial
sets the addressed object's max and current vital to the packet's max and
cur, and enqueues exactly one event of the matching kind — but the event's
`(old, new)` pair is taken from the **player's** vital (its value before and
after the branch), so `new` equals the packet's cur only when the addressed
serial is the player's; for any other serial both `old` and `new` are the
player's unchanged value. -/
theorem c1_vitals_amended (k : VitalKind) (st : GameState)
    (serial maxv cur : Nat) (pm m : Mobile) (hlc : st.lc = true)
    (hpm : findObj st.playerSerial st.objects = some pm)
    (hm : findObj serial st.objects = some m) :
    vitalHandler k serial maxv cur st = .ok
      { st with objects := updateObj serial (vitalUpd k maxv cur) st.objects,
                events := st.events ++ [⟨vitalEvtType k, vitalCur k pm,
                  if st.playerSerial = serial then some cur
                  else vitalCur k pm⟩] } ∧
    findObj serial (updateObj serial (vitalUpd k maxv cur) st.objects) =
      some (vitalUpd k maxv cur m) ∧
    vitalMax k (vitalUpd k maxv cur m) = some maxv ∧
    vitalCur k (vitalUpd k maxv cur m) = some cur := by
  have hfind : findObj serial (updateObj serial (vitalUpd k maxv cur) st.objects) =
      some (vitalUpd k maxv cur m) := by
    rw [findObj_updateObj_self, hm]
    rfl
  cases k
  · exact ⟨handleUpdateHealth_eq st serial maxv cur pm m hlc hpm hm,
      hfind, rfl, rfl⟩
  · exact ⟨handleUpdateMana_eq st serial maxv cur pm m hlc hpm hm,
      hfind, rfl, rfl⟩
  · exact ⟨handleUpdateStamina_eq st serial maxv cur pm m hlc hpm hm,
      hfind, rfl, rfl⟩

/-- Counterexample to C1 as stated: in `exWorld` (player serial 1 at 77 hp,
known mobile 0x1001 with unknown vitals), an UpdateHealth(serial=0x1001,
max=100, cur=40) does set the mobile to hp 40/100 and queues exactly one
HP-changed event — but that event carries `old = some 77` and
`new = some 77` (the player's hp), not the addressed mobile's prior value
(`none`) and new value (`40`). -/
theorem c1_counterexample :
    handleUpdateHealth 0x1001 100 40 exWorld = .ok
      { lc := true
        playerSerial := 1
        objects := [(1, { serial := 1, hp := some 77, maxhp := some 100 }),
                    (0x1001, { serial := 0x1001, hp := some 40, maxhp := some 100 })]
        events := [⟨EVT_HP_CHANGED, some 77, some 77⟩] } ∧
    (some 77 : Option Nat) ≠ some 40 ∧ (some 77 : Option Nat) ≠ none := by
  decide

/-- Witness for C1 (amended) at a concrete input: the player itself is
addressed, so the single queued event's `new` is the packet's cur. -/
theorem c1_witness :
    vitalHandler .hp 1 120 50 exWorld = .ok
      { lc := true
        playerSerial := 1
        objects := [(1, { serial := 1, hp := some 50, maxhp := some 120 }),
                    (0x1001, { serial := 0x1001 })]
        events := [⟨EVT_HP_CHANGED, some 77, some 50⟩] } := by
  have h := (c1_vitals_amended .hp exWorld 1 120 50
    { serial := 1, hp := some 77, maxhp := some 100 }
    { serial := 1, hp := some 77, maxhp := some 100 }
    rfl (by decide) (by decide)).1
  rw [h]
  decide

lemma decompressLoop_eq_specWalk : ∀ fuel (buf : List Nat) (node bitNum srcPos : Nat)
    (dest : List Nat),
    (buf.length - srcPos) * 8 + max bitNum 1 ≤ fuel →
    1 ≤ bitNum → bitNum ≤ 8 →
    decompressLoop buf node bitNum srcPos dest =
      decompressSpecWalk buf node (8 * srcPos + (8 - bitNum)) dest
        (8 * buf.length - (8 * srcPos + (8 - bitNum))) := by
  intro fuel
  induction fuel with
  | zero =>
    intro buf node bitNum srcPos dest hf h1 h8
    omega
  | succ n ih =>
    intro buf node bitNum srcPos dest hf h1 h8
    rw [decompressLoop]
    by_cases h : srcPos < buf.length
    · rw [dif_pos h]
      have hp : 8 * srcPos + (8 - bitNum) < 8 * buf.length := by omega
      obtain ⟨k, hk⟩ : ∃ k, 8 * buf.length - (8 * srcPos + (8 - bitNum)) = k + 1 :=
        ⟨8 * buf.length - (8 * srcPos + (8 - bitNum)) - 1, by omega⟩
      rw [hk, decompressSpecWalk]
      have hbit : bitAt buf (8 * srcPos + (8 - bitNum)) =
          ((buf.getD srcPos 0) >>> (bitNum - 1)) &&& 1 := by
        unfold bitAt
        have e1 : (8 * srcPos + (8 - bitNum)) / 8 = srcPos := by omega
        have e2 : 7 - (8 * srcPos + (8 - bitNum)) % 8 = bitNum - 1 := by omega
        rw [e1, e2]
      rw [hbit]
      by_cases hv : decompressionTree node (((buf.getD srcPos 0) >>> (bitNum - 1)) &&& 1) = -256
      · rw [if_pos hv, if_pos hv]
        have e3 : (8 * srcPos + (8 - bitNum)) / 8 = srcPos := by omega
        rw [e3]
      · rw [if_neg hv, if_neg hv]
        by_cases hlt : decompressionTree node (((buf.getD srcPos 0) >>> (bitNum - 1)) &&& 1) < 1
        · rw [if_pos hlt, if_pos hlt, if_pos hlt]
          by_cases hb : bitNum - 1 < 1
          · rw [if_pos hb]
            have hrec := ih buf 0 8 (srcPos + 1)
              (dest ++ [(0 - decompressionTree node
                (((buf.getD srcPos 0) >>> (bitNum - 1)) &&& 1)).toNat])
              (by omega) (by omega) (by omega)
            rw [hrec]
            have e4 : 8 * (srcPos + 1) + (8 - 8) = 8 * srcPos + (8 - bitNum) + 1 := by
              omega
            rw [e4]
            have e5 : 8 * buf.length - (8 * srcPos + (8 - bitNum) + 1) = k := by omega
            rw [e5]
          · rw [if_neg hb]
            have hrec := ih buf 0 (bitNum - 1) srcPos
              (dest ++ [(0 - decompressionTree node
                (((buf.getD srcPos 0) >>> (bitNum - 1)) &&& 1)).toNat])
              (by omega) (by omega) (by omega)
            rw [hrec]
            have e4 : 8 * srcPos + (8 - (bitNum - 1)) = 8 * srcPos + (8 - bitNum) + 1 := by
              omega
            rw [e4]
            have e5 : 8 * buf.length - (8 * srcPos + (8 - bitNum) + 1) = k := by omega
            rw [e5]
        · rw [if_neg hlt, if_neg hlt, if_neg hlt]
          by_cases hb : bitNum - 1 < 1
          · rw [if_pos hb]
            have hrec := ih buf (decompressionTree node
                (((buf.getD srcPos 0) >>> (bitNum - 1)) &&& 1)).toNat 8 (srcPos + 1) dest
              (by omega) (by omega) (by omega)
            rw [hrec]
            have e4 : 8 * (srcPos + 1) + (8 - 8) = 8 * srcPos + (8 - bitNum) + 1 := by
              omega
            rw [e4]
            have e5 : 8 * buf.length - (8 * srcPos + (8 - bitNum) + 1) = k := by omega
            rw [e5]
          · rw [if_neg hb]
            have hrec := ih buf (decompressionTree node
                (((buf.getD srcPos 0) >>> (bitNum - 1)) &&& 1)).toNat (bitNum - 1) srcPos dest
              (by omega) (by omega) (by omega)
            rw [hrec]
            have e4 : 8 * srcPos + (8 - (bitNum - 1)) = 8 * srcPos + (8 - bitNum) + 1 := by
              omega
            rw [e4]
            have e5 : 8 * buf.length - (8 * srcPos + (8 - bitNum) + 1) = k := by omega
            rw [e5]
    · rw [dif_neg h]
      have e0 : 8 * buf.length - (8 * srcPos + (8 - bitNum)) = 0 := by omega
      rw [e0]
      rfl

lemma decompress_eq_spec (buf : List Nat) : decompress buf = decompressSpec buf := by
  unfold decompress decompressSpec
  have h := decompressLoop_eq_specWalk ((buf.length - 0) * 8 + max 8 1) buf 0 8 0 []
    (le_refl _) (by omega) (by omega)
  simpa using h

lemma decompressSpecWalk_size_le (buf : List Nat) :
    ∀ rbits node p dest out size,
      p + rbits ≤ 8 * buf.length →
      decompressSpecWalk buf node p dest rbits = .ok (out, size) →
      size ≤ buf.length := by
  intro rbits
  induction rbits with
  | zero =>
    intro node p dest out size hle hok
    cases hok
  | succ n ih =>
    intro node p dest out size hle hok
    rw [decompressSpecWalk] at hok
    by_cases hv : decompressionTree node (bitAt buf p) = -256
    · rw [if_pos hv] at hok
      cases hok
      omega
    · rw [if_neg hv] at hok
      by_cases hlt : decompressionTree node (bitAt buf p) < 1
      · rw [if_pos hlt] at hok
        exact ih 0 (p + 1) _ out size (by omega) hok
      · rw [if_neg hlt] at hok
        exact ih _ (p + 1) dest out size (by omega) hok

lemma decompress_size_le (buf out : List Nat) (size : Nat)
    (h : decompress buf = .ok (out, size)) : size ≤ buf.length := by
  rw [decompress_eq_spec] at h
  exact decompressSpecWalk_size_le buf (8 * buf.length) 0 0 [] out size (by omega) h

/-- C4: the source's decompressor coincides, on every input, with the
specification-level walk: most-significant-bit-first traversal of the fixed
tree from node 0 per codeword, where a child value of 1 or more is the next
node, -256 stops immediately discarding the current partial byte and reports
`current source position + 1` consumed source bytes, any other value `v ≤ 0`
emits byte `0 - v` and resets to the root, and an exhausted source mid-walk
signals the incomplete-frame condition (`NoFullPacketError`) rather than a
fatal error or wrong output. -/
theorem c4_decompress_refines_spec (buf : List Nat) :
    decompress buf = decompressSpec buf :=
  decompress_eq_spec buf

/-- C3: every receive call that returns a decoded message removes exactly the
source bytes that message consumed from the front of the accumulation
buffer: the compressed source size reported by the decompressor when
compression is on, the raw message size (which then necessarily equals the
whole buffered run, by the length assertion) otherwise; bytes after the
consumed prefix — such as a second complete compressed message received in
the same socket read — stay buffered and are returned by the next receive
call, as the two concrete ping messages show. -/
theorem c3_recv_trims_consumed :
    (∀ (compress : Bool) (buf : List Nat) (pkt : DecodedPacket) (rest : List Nat),
      recv compress buf = .ok (pkt, rest) →
      (compress = false → rest = [] ∧ pkt.length = buf.length) ∧
      (compress = true → ∃ raw size, decompress buf = .ok (raw, size) ∧
        pkt.length = raw.length ∧ size ≤ buf.length ∧
        rest = buf.drop size ∧ buf = buf.take size ++ rest)) ∧
    recv true (pingCompressedA ++ pingCompressedB) =
      .ok (⟨0x73, 2, 2, true, .ping 0⟩, pingCompressedB) ∧
    recv true pingCompressedB = .ok (⟨0x73, 2, 2, true, .ping 1⟩, []) ∧
    recv false [0x73, 0] = .ok (⟨0x73, 2, 2, true, .ping 0⟩, []) := by
  refine ⟨?_, ?_, ?_, ?_⟩
  · intro compress buf pkt rest hok
    cases compress
    · refine ⟨fun _ => ?_, fun hc => absurd hc (by decide)⟩
      simp only [recv, Bool.false_eq_true, if_false, bind_ok] at hok
      by_cases hb : buf = []
      · simp [hb] at hok
      · rw [if_neg hb] at hok
        cases hph : phProcess buf with
        | error e => rw [hph, bind_error] at hok; cases hok
        | ok pkt0 =>
          rw [hph, bind_ok] at hok
          cases hval : validate pkt0 with
          | error e => rw [hval, bind_error] at hok; cases hok
          | ok pkt1 =>
            rw [hval, bind_ok] at hok
            by_cases hlen : pkt1.length = buf.length
            · rw [if_pos hlen] at hok
              cases hok
              exact ⟨List.drop_length buf, hlen⟩
            · rw [if_neg hlen] at hok
              cases hok
    · refine ⟨fun hc => absurd hc (by decide), fun _ => ?_⟩
      simp only [recv, if_true, bind_ok] at hok
      cases hd : decompress buf with
      | error e => rw [hd, bind_error] at hok; cases hok
      | ok rs =>
        obtain ⟨raw, size⟩ := rs
        rw [hd, bind_ok] at hok
        by_cases hb : raw = []
        · simp [hb] at hok
        · rw [if_neg hb] at hok
          cases hph : phProcess raw with
          | error e => rw [hph, bind_error] at hok; cases hok
          | ok pkt0 =>
            rw [hph, bind_ok] at hok
            cases hval : validate pkt0 with
            | error e => rw [hval, bind_error] at hok; cases hok
            | ok pkt1 =>
              rw [hval, bind_ok] at hok
              by_cases hlen : pkt1.length = raw.length
              · rw [if_pos hlen] at hok
                cases hok
                exact ⟨raw, size, rfl, hlen, decompress_size_le buf raw size hd,
                  rfl, (List.take_append_drop size buf).symm⟩
              · rw [if_neg hlen] at hok
                cases hok
  · have hd : decompress (pingCompressedA ++ pingCompressedB) = .ok ([0x73, 0], 2) := by
      rw [decompress_eq_spec]
      decide
    simp only [recv, if_true, hd, bind_ok]
    decide
  · have hd : decompress pingCompressedB = .ok ([0x73, 1], 3) := by
      rw [decompress_eq_spec]
      decide
    simp only [recv, if_true, hd, bind_ok]
    decide
  · decide

/-- Witness for C3 at a concrete uncompressed receive: the whole two-byte
ping message is consumed and nothing remains buffered. -/
theorem c3_witness :
    ([] : List Nat) = [] ∧
    (⟨0x73, 2, 2, true, GamePacket.ping 0⟩ : DecodedPacket).length =
      ([0x73, 0] : List Nat).length :=
  (c3_recv_trims_consumed.1 false [0x73, 0] ⟨0x73, 2, 2, true, .ping 0⟩ []
    (by decide)).1 rfl

end PyUO
